import Mathlib

/-!
Verification of the RoofingLeadApp job domain logic.

Shallow embedding of the ledger, status-pipeline, media-permission and
customer-matcher logic found in the screens:
  * job detail screen (handleSaveDetails, toggleDepositStatus,
    handleSavePayment, updateJobStatus, processAndUploadImage),
  * add-lead screen (balance derivation, addPayment, payment removal,
    lead composition, the customer filter effect),
  * LeadImagePicker (toggleFolderPermission, pickAndUpload, pickDocument).

Machine numbers are modelled as exact rationals (the standard idealization
of decimal arithmetic); where a claim depends on IEEE special values
(NaN, plus or minus infinity) those are modelled explicitly by `JSNum`.
A screen's early `return` before any `updateDoc` call is modelled by an
`Option` result: `none` means no state change and no persistence write.
-/

namespace RoofingLead

/-- The 11-value status enumeration (`STATUSES` in the job screens). -/
inductive Status where
  | lead
  | retail
  | inspected
  | claimFiled
  | metWithAdjuster
  | partialApproval
  | fullApproval
  | production
  | pendingPayment
  | delinquentPayment
  | completed
deriving DecidableEq, Repr

/-- The status-relevant fragment of a persisted job record: `status` plus
`completedAt` (an ISO timestamp or null, modelled as `Option Nat`). -/
structure JobStatusState where
  status : Status
  completedAt : Option Nat
deriving DecidableEq, Repr

/-- `updateJobStatus` as written (identically) in the job detail screens:
the payload sets `status := newStatus` and `completedAt` to the current
timestamp when `newStatus === 'Completed'`, else to null; the local job is
merged with exactly that payload. `now` is the transition's timestamp. -/
def updateJobStatus (_j : JobStatusState) (newStatus : Status) (now : Nat) :
    JobStatusState :=
  { status := newStatus
    completedAt := if newStatus = Status.completed then some now else none }

/-- The financial fragment of a job record. -/
structure JobFin where
  contractAmount : ℚ
  depositAmount : ℚ
  isDepositPaid : Bool
  payments : List ℚ
  balance : ℚ
deriving DecidableEq, Repr

/-- The balance formula used by every screen:
`contractAmount - (isDepositPaid ? depositAmount : 0) - sum(payments)`. -/
def computeBalance (contractAmount depositAmount : ℚ) (isDepositPaid : Bool)
    (payments : List ℚ) : ℚ :=
  contractAmount - (if isDepositPaid then depositAmount else 0) - payments.sum

/-- `.replace(/[^0-9.]/g, '')`: keep only digits and dots. -/
def stripNonNumeric (s : String) : List Char :=
  s.toList.filter (fun c => c.isDigit || c == '.')

/-- Consume a leading digit run: returns (value, number of digits, rest). -/
def parseDigits (acc len : Nat) : List Char → Nat × Nat × List Char
  | [] => (acc, len, [])
  | c :: cs =>
    if c.isDigit then parseDigits (acc * 10 + (c.toNat - 48)) (len + 1) cs
    else (acc, len, c :: cs)

/-- `parseFloat` on a digits-and-dots string: the longest numeric prefix
`digits [ '.' digits ]`; `none` models NaN (no numeric prefix at all). -/
def jsParseFloat (cs : List Char) : Option ℚ :=
  let p := parseDigits 0 0 cs
  match p.2.2 with
  | '.' :: rest =>
    let q := parseDigits 0 0 rest
    if p.2.1 == 0 && q.2.1 == 0 then none
    else some ((p.1 : ℚ) + (q.1 : ℚ) / (10 : ℚ) ^ q.2.1)
  | _ => if p.2.1 == 0 then none else some (p.1 : ℚ)

/-- `parseFloat(String(x).replace(/[^0-9.]/g, '')) || 0`: the amount parser
used for contract, deposit and deductible fields (NaN becomes 0). -/
def parseAmountOrZero (s : String) : ℚ :=
  (jsParseFloat (stripNonNumeric s)).getD 0

/-- `handleSaveDetails` (job detail screen), restricted to the ledger
fields it touches: re-parses contract and deposit from the edit form,
keeps `isDepositPaid` and `payments`, recomputes `balance`. -/
def handleSaveDetails (j : JobFin) (contractStr depositStr : String) : JobFin :=
  let contractAmount := parseAmountOrZero contractStr
  let depositAmount := parseAmountOrZero depositStr
  let paymentsSum := j.payments.sum
  { contractAmount := contractAmount
    depositAmount := depositAmount
    isDepositPaid := j.isDepositPaid
    payments := j.payments
    balance := contractAmount - (if j.isDepositPaid then depositAmount else 0) -
      paymentsSum }

/-- `toggleDepositStatus` (job detail screen): flips the flag and writes
`balance = contractAmount - (newValue ? depositAmount : 0) - sum(payments)`. -/
def toggleDepositStatus (j : JobFin) (newValue : Bool) : JobFin :=
  { j with
    isDepositPaid := newValue
    balance := j.contractAmount - (if newValue then j.depositAmount else 0) -
      j.payments.sum }

/-- `handleSavePayment` (job detail screen): parses the amount string, and
on `!amount || amount <= 0` returns before any write (`none`); otherwise
appends the payment and recomputes the balance. -/
def handleSavePayment (j : JobFin) (amountStr : String) : Option JobFin :=
  match jsParseFloat (stripNonNumeric amountStr) with
  | none => none
  | some amount =>
    if amount ≤ 0 then none
    else
      let updatedPayments := j.payments ++ [amount]
      some { j with
        payments := updatedPayments
        balance := j.contractAmount -
          (if j.isDepositPaid then j.depositAmount else 0) -
          updatedPayments.sum }

/-- `addPayment` (add-lead screen): same parse and guard as above, but the
draft state is just the payments list (balance is a derived value there). -/
def addPayment (payments : List ℚ) (newPayment : String) : Option (List ℚ) :=
  match jsParseFloat (stripNonNumeric newPayment) with
  | none => none
  | some amount =>
    if amount ≤ 0 then none else some (payments ++ [amount])

/-- Payment removal in the add-lead screen:
`prev.filter((_, idx) => idx !== i)`. -/
def removePaymentAt (ps : List ℚ) (i : Nat) : List ℚ :=
  ((ps.enum).filter (fun p => p.1 != i)).map (fun p => p.2)

/-- The job object composed at lead save time (`handleSave`, add-lead
screen), restricted to its ledger fields; `balance` is the screen's derived
`parsedContract - (depositPaid ? parsedDeposit : 0) - paymentsTotal`. -/
def composeLead (contractStr depositStr : String) (depositPaid : Bool)
    (payments : List ℚ) : JobFin :=
  let parsedContract := parseAmountOrZero contractStr
  let parsedDeposit := parseAmountOrZero depositStr
  { contractAmount := parsedContract
    depositAmount := parsedDeposit
    isDepositPaid := depositPaid
    payments := payments
    balance := parsedContract - (if depositPaid then parsedDeposit else 0) -
      payments.sum }

/-- The stored-balance invariant the spec states for every job record. -/
def ledgerInvariant (j : JobFin) : Prop :=
  j.balance =
    computeBalance j.contractAmount j.depositAmount j.isDepositPaid j.payments

/-- A JS number as the payment guard sees it: NaN, an infinity, or a finite
value (modelled exactly as a rational). -/
inductive JSNum where
  | nan
  | posInf
  | negInf
  | val (q : ℚ)
deriving DecidableEq, Repr

/-- JS truthiness of a number: NaN and 0 are falsy, everything else truthy. -/
def JSNum.isTruthy : JSNum → Bool
  | .nan => false
  | .posInf => true
  | .negInf => true
  | .val q => q != 0

/-- The JS comparison `amount <= 0`: false for NaN, true for -Infinity,
false for +Infinity, the rational comparison otherwise. -/
def JSNum.leZero : JSNum → Bool
  | .nan => false
  | .posInf => false
  | .negInf => true
  | .val q => decide (q ≤ 0)

/-- `Number.isFinite`: only ordinary values are finite. -/
def JSNum.isFiniteNum : JSNum → Bool
  | .val _ => true
  | _ => false

/-- The payment guard of `addPayment` / `handleSavePayment`, applied to the
already-parsed amount at IEEE fidelity: `if (!amount || amount <= 0)` the
function returns before any state change or write (`none`), otherwise the
amount is appended. -/
def addPaymentNum (payments : List JSNum) (amount : JSNum) :
    Option (List JSNum) :=
  if !amount.isTruthy || amount.leZero then none
  else some (payments ++ [amount])

/-- A lead file as built by LeadImagePicker (field names as in `LeadFile`). -/
structure LeadFile where
  id : String
  url : String
  name : String
  type : String
  category : String
  isPublic : Bool
  createdAt : Nat
  companyId : String
deriving DecidableEq, Repr

/-- LeadImagePicker component state: the uploaded files and the
category-to-boolean folder permission map (`Record<string, boolean>`,
modelled as a partial map). -/
structure PickerState where
  files : List LeadFile
  folderPermissions : String → Option Bool

/-- The new-file expression of `pickAndUpload` / `pickDocument`:
`isPublic: folderPermissions[category] ?? false`. -/
def newLeadFile (perms : String → Option Bool)
    (category fid url name ftype : String) (createdAt : Nat) : LeadFile :=
  { id := fid
    url := url
    name := name
    type := ftype
    category := category
    isPublic := (perms category).getD false
    createdAt := createdAt
    companyId := "TEMP_COMPANY_ID" }

/-- `pickAndUpload`'s state effect after a successful upload: append the new
file; the permission map is untouched. -/
def pickAndUpload (s : PickerState) (category fid url name : String)
    (createdAt : Nat) : PickerState :=
  { files :=
      s.files ++ [newLeadFile s.folderPermissions category fid url name
        "image" createdAt]
    folderPermissions := s.folderPermissions }

/-- `toggleFolderPermission`: `{ ...folderPermissions, [cat]: value }`,
files untouched. -/
def toggleFolderPermission (s : PickerState) (cat : String) (value : Bool) :
    PickerState :=
  { files := s.files
    folderPermissions := fun c =>
      if c = cat then some value else s.folderPermissions c }

/-- The spec's `defaultFor(category, folderPermissions)`: the recorded
folder default for the category, or false when none is recorded. -/
def defaultFor (perms : String → Option Bool) (category : String) : Bool :=
  match perms category with
  | some b => b
  | none => false

/-- The photo-list field targeted by a job-screen upload. -/
inductive PhotoField where
  | inspectionPhotos
  | installPhotos
deriving DecidableEq, Repr

/-- A `JobMedia` record as built by the job detail screen. -/
structure JobMedia where
  id : String
  url : String
  category : String
  shared : Bool
  uploadedAt : String
deriving DecidableEq, Repr

/-- `processAndUploadImage` (job detail screen): the returned media object
always carries `shared: false`; no folder-permission map is consulted. -/
def processAndUploadImage (photoType : PhotoField)
    (mediaId downloadUrl uploadedAt : String) : JobMedia :=
  { id := mediaId
    url := downloadUrl
    category :=
      if photoType = PhotoField.inspectionPhotos then "inspection"
      else "install"
    shared := false
    uploadedAt := uploadedAt }

/-- The customer fields the matcher reads. -/
structure Customer where
  id : String
  firstName : String
  lastName : String
deriving DecidableEq, Repr

/-- Does `needle` occur at the head of the second list? -/
def prefChars : List Char → List Char → Bool
  | [], _ => true
  | _ :: _, [] => false
  | a :: as, b :: bs => a == b && prefChars as bs

/-- JS `hay.includes(needle)` on char lists. -/
def inclChars (needle : List Char) : List Char → Bool
  | [] => needle.isEmpty
  | c :: rest => prefChars needle (c :: rest) || inclChars needle rest

/-- JS `.toLowerCase()`, at the character-list level. -/
def toLowerChars (s : String) : List Char :=
  s.toList.map Char.toLower

/-- JS `.trim()`, at the character-list level: drop leading and trailing
whitespace. -/
def trimmedChars (s : String) : List Char :=
  ((s.toList.dropWhile Char.isWhitespace).reverse.dropWhile
    Char.isWhitespace).reverse

/-- The filter predicate of the add-lead customer effect:
`` `${c.firstName} ${c.lastName}`.toLowerCase().includes(name.toLowerCase()) ``. -/
def customerMatches (nameQuery : String) (c : Customer) : Bool :=
  inclChars (toLowerChars nameQuery)
    (toLowerChars (c.firstName ++ " " ++ c.lastName))

/-- The customer filter effect of the add-lead screen: with an empty trimmed
query (`!name.trim()`) or an existing customer selected the candidate list
is reset to `[]`; otherwise it is the filter of the in-memory list by
`customerMatches`. The effect reads only its inputs and writes only the
candidate list, so it is modelled as a pure function. -/
def filterCustomers (nameQuery : String) (selectedExisting : Bool)
    (existing : List Customer) : List Customer :=
  if (trimmedChars nameQuery).isEmpty || selectedExisting then []
  else existing.filter (customerMatches nameQuery)

/-! ## Theorems -/

/-- C1: after any of the ledger mutations — saving details, toggling the
deposit-paid flag, saving a payment, composing a lead — the stored balance
equals `contractAmount - (isDepositPaid ? depositAmount : 0) - sum(payments)`. -/
theorem c1_stored_balance_recomputed :
    (∀ j s t, ledgerInvariant (handleSaveDetails j s t)) ∧
    (∀ j v, ledgerInvariant (toggleDepositStatus j v)) ∧
    (∀ j s j', handleSavePayment j s = some j' → ledgerInvariant j') ∧
    (∀ s t dp ps, ledgerInvariant (composeLead s t dp ps)) := by
  refine ⟨fun j s t => rfl, fun j v => rfl, ?_, fun s t dp ps => rfl⟩
  intro j s j' h
  unfold handleSavePayment at h
  cases hp : jsParseFloat (stripNonNumeric s) with
  | none => rw [hp] at h; exact absurd h (by simp)
  | some a =>
    rw [hp] at h
    by_cases ha : a ≤ 0
    · simp [ha] at h
    · simp only [ha, if_false, Option.some.injEq] at h
      subst h
      rfl

/-- Witness for C1: a concrete successful payment save satisfies the
invariant. -/
theorem c1_stored_balance_recomputed_witness :
    ledgerInvariant
      { contractAmount := 5000, depositAmount := 1000, isDepositPaid := true,
        payments := [2000], balance := 2000 } :=
  c1_stored_balance_recomputed.2.2.1 ⟨5000, 1000, true, [], 4000⟩ "2000"
    ⟨5000, 1000, true, [2000], 2000⟩ (by
      have hp : jsParseFloat (stripNonNumeric "2000") = some 2000 := by decide
      simp only [handleSavePayment, hp]
      norm_num)

/-- C2: a transition to `Completed` stores the transition's timestamp in
`completedAt`; a transition from `Completed` to any other status stores
null. -/
theorem c2_completed_timestamp :
    (∀ j t, (updateJobStatus j Status.completed t).completedAt = some t) ∧
    (∀ j y t, j.status = Status.completed → y ≠ Status.completed →
      (updateJobStatus j y t).completedAt = none) := by
  constructor
  · intro j t
    simp [updateJobStatus]
  · intro j y t _h hy
    simp [updateJobStatus, hy]

/-- Witness for C2 at a concrete entry and exit of `Completed`. -/
theorem c2_completed_timestamp_witness :
    (updateJobStatus ⟨Status.production, none⟩ Status.completed 5).completedAt
      = some 5 ∧
    (updateJobStatus ⟨Status.completed, some 5⟩ Status.production 9).completedAt
      = none :=
  ⟨c2_completed_timestamp.1 ⟨Status.production, none⟩ 5,
   c2_completed_timestamp.2 ⟨Status.completed, some 5⟩ Status.production 9 rfl
     (by decide)⟩

/-- C3 counterexample: re-applying `Completed` to a job already completed at
time 5, at the later time 7, overwrites `completedAt` with 7 — the stored
timestamp changes without the job ever leaving `Completed`. -/
theorem c3_reapply_counterexample :
    (updateJobStatus ⟨Status.completed, some 5⟩ Status.completed 7).completedAt
      = some 7 ∧
    (updateJobStatus ⟨Status.completed, some 5⟩ Status.completed 7).completedAt
      ≠ some 5 := by
  decide

/-- C3 amended: re-applying `Completed` to an already-completed job
overwrites `completedAt` with the re-application's timestamp, so the stored
value is unchanged exactly when that timestamp equals the stored one; no
exit/re-entry is needed to produce a new timestamp. -/
theorem c3_reapply_overwrites_timestamp :
    ∀ j t, j.status = Status.completed →
      (updateJobStatus j Status.completed t).completedAt = some t ∧
      ((updateJobStatus j Status.completed t).completedAt = j.completedAt ↔
        j.completedAt = some t) := by
  intro j t _h
  constructor
  · simp [updateJobStatus]
  · simp only [updateJobStatus, if_pos rfl]
    exact eq_comm

/-- Witness for amended C3 at a concrete completed job. -/
theorem c3_reapply_overwrites_timestamp_witness :
    (updateJobStatus ⟨Status.completed, some 5⟩ Status.completed 7).completedAt
      = some 7 ∧
    ((updateJobStatus ⟨Status.completed, some 5⟩ Status.completed 7).completedAt
      = (⟨Status.completed, some 5⟩ : JobStatusState).completedAt ↔
        (⟨Status.completed, some 5⟩ : JobStatusState).completedAt = some 7) :=
  c3_reapply_overwrites_timestamp ⟨Status.completed, some 5⟩ 7 rfl

/-- C4 counterexample: `+Infinity` is not finite, yet the guard
`!amount || amount <= 0` lets it through and the payment is appended. -/
theorem c4_infinity_counterexample :
    JSNum.isFiniteNum JSNum.posInf = false ∧
    addPaymentNum [] JSNum.posInf = some [JSNum.posInf] := by
  constructor
  · rfl
  · rfl

/-- C4 amended: the guard rejects (no state change, no write) exactly NaN,
`-Infinity` and amounts `≤ 0`; every positive rational amount — and also
`+Infinity` — is accepted; an accepted save appends the amount and
recomputes the balance by the ledger formula. -/
theorem c4_invalid_amount_guard :
    (∀ ps, addPaymentNum ps JSNum.nan = none) ∧
    (∀ ps, addPaymentNum ps JSNum.negInf = none) ∧
    (∀ ps q, q ≤ 0 → addPaymentNum ps (JSNum.val q) = none) ∧
    (∀ ps q, 0 < q →
      addPaymentNum ps (JSNum.val q) = some (ps ++ [JSNum.val q])) ∧
    (∀ j s j', handleSavePayment j s = some j' →
      (∃ a, 0 < a ∧ j'.payments = j.payments ++ [a]) ∧ ledgerInvariant j') := by
  refine ⟨fun ps => rfl, fun ps => rfl, ?_, ?_, ?_⟩
  · intro ps q hq
    by_cases h0 : q = 0
    · subst h0
      rfl
    · simp [addPaymentNum, JSNum.isTruthy, JSNum.leZero, hq]
  · intro ps q hq
    simp [addPaymentNum, JSNum.isTruthy, JSNum.leZero, hq.ne', not_le.mpr hq]
  · intro j s j' h
    unfold handleSavePayment at h
    cases hp : jsParseFloat (stripNonNumeric s) with
    | none => rw [hp] at h; exact absurd h (by simp)
    | some a =>
      rw [hp] at h
      by_cases ha : a ≤ 0
      · simp [ha] at h
      · simp only [ha, if_false, Option.some.injEq] at h
        subst h
        exact ⟨⟨a, lt_of_not_le ha, rfl⟩, rfl⟩

/-- Witness for amended C4 at concrete rejected and accepted amounts. -/
theorem c4_invalid_amount_guard_witness :
    addPaymentNum [] (JSNum.val (-5)) = none ∧
    addPaymentNum [] (JSNum.val 0) = none ∧
    addPaymentNum [] (JSNum.val 2) = some [JSNum.val 2] :=
  ⟨c4_invalid_amount_guard.2.2.1 [] (-5) (by norm_num),
   c4_invalid_amount_guard.2.2.1 [] 0 le_rfl,
   c4_invalid_amount_guard.2.2.2.1 [] 2 (by norm_num)⟩

/-- A folder-permission map recording `inspection ↦ true`. -/
def permsInspTrue : String → Option Bool :=
  fun c => if c = "inspection" then some true else none

/-- C5 counterexample: with the folder default for `inspection` recorded as
true, a photo uploaded from the job detail screen (no explicit override) is
created with `shared = false`, not the folder default. -/
theorem c5_jobscreen_counterexample :
    defaultFor permsInspTrue "inspection" = true ∧
    (processAndUploadImage PhotoField.inspectionPhotos "m1" "u" "t").category
      = "inspection" ∧
    (processAndUploadImage PhotoField.inspectionPhotos "m1" "u" "t").shared
      = false := by
  refine ⟨?_, rfl, rfl⟩
  simp [defaultFor, permsInspTrue]

/-- C5 amended: an asset created through the lead image picker inherits the
folder default for its category (false when the category has no recorded
default — fail-closed); an asset created through the job detail screen's
upload always gets `shared = false`, regardless of any folder default. -/
theorem c5_shared_inheritance :
    (∀ perms category fid url name ftype createdAt,
      (newLeadFile perms category fid url name ftype createdAt).isPublic =
        defaultFor perms category) ∧
    (∀ perms category, perms category = none →
      defaultFor perms category = false) ∧
    (∀ pt mid u t, (processAndUploadImage pt mid u t).shared = false) := by
  refine ⟨?_, ?_, fun pt mid u t => rfl⟩
  · intro perms category _ _ _ _ _
    unfold newLeadFile defaultFor
    cases perms category <;> rfl
  · intro perms category h
    simp [defaultFor, h]

/-- Witness for amended C5: an unrecorded category defaults to not shared. -/
theorem c5_shared_inheritance_witness :
    defaultFor (fun _ => none) "inspection" = false :=
  c5_shared_inheritance.2.1 (fun _ => none) "inspection" rfl

/-- C6: toggling a category's folder default leaves the files list (hence
every existing asset's `shared` flag) unchanged and updates only that
category's entry of the permission map. -/
theorem c6_toggle_folder_frame :
    ∀ s cat v,
      (toggleFolderPermission s cat v).files = s.files ∧
      (toggleFolderPermission s cat v).folderPermissions cat = some v ∧
      ∀ c, c ≠ cat →
        (toggleFolderPermission s cat v).folderPermissions c =
          s.folderPermissions c := by
  intro s cat v
  refine ⟨rfl, by simp [toggleFolderPermission], ?_⟩
  intro c hc
  simp [toggleFolderPermission, hc]

/-- A concrete picker state: one already-uploaded file, all defaults off. -/
def pickerEx : PickerState :=
  { files := [newLeadFile (fun _ => none) "Inspection" "f1" "u" "n" "image" 0]
    folderPermissions := fun _ => some false }

/-- Witness for C6 at a concrete state and a distinct category. -/
theorem c6_toggle_folder_frame_witness :
    (toggleFolderPermission pickerEx "Inspection" true).files = pickerEx.files ∧
    (toggleFolderPermission pickerEx "Inspection" true).folderPermissions
      "Inspection" = some true ∧
    (toggleFolderPermission pickerEx "Inspection" true).folderPermissions
      "Install" = pickerEx.folderPermissions "Install" := by
  obtain ⟨h1, h2, h3⟩ := c6_toggle_folder_frame pickerEx "Inspection" true
  exact ⟨h1, h2, h3 "Install" (by decide)⟩

/-- Erasing the element whose original index is `k` from an enumerated
append `ps ++ [a]`, where `k` is the index of `a`, yields `ps`. -/
theorem enumFrom_filter_ne (a : ℚ) :
    ∀ (ps : List ℚ) (n k : Nat), k = n + ps.length →
      ((List.enumFrom n (ps ++ [a])).filter (fun p => p.1 != k)).map
        (fun p => p.2) = ps := by
  intro ps
  induction ps with
  | nil =>
    intro n k hk
    subst hk
    simp [List.enumFrom]
  | cons h t ih =>
    intro n k hk
    simp only [List.length_cons] at hk
    have hcond : (n != k) = true := by
      simp only [bne_iff_ne, ne_eq]
      omega
    simp only [List.cons_append, List.enumFrom, List.filter_cons, hcond,
      if_true, List.map_cons, List.append_eq]
    rw [ih (n + 1) k (by omega)]

/-- Removing the last element of `ps ++ [a]` by its index gives back `ps`. -/
theorem removePaymentAt_append (ps : List ℚ) (a : ℚ) :
    removePaymentAt (ps ++ [a]) ps.length = ps := by
  unfold removePaymentAt
  exact enumFrom_filter_ne a ps 0 ps.length (by omega)

/-- C7: after a successful `addPayment`, removing the payment at the index
where it was appended restores the prior payment list, and with it the
derived balance, for every contract/deposit configuration. -/
theorem c7_add_remove_roundtrip :
    ∀ (ps ps' : List ℚ) (s : String), addPayment ps s = some ps' →
      removePaymentAt ps' ps.length = ps ∧
      ∀ c d dp, computeBalance c d dp (removePaymentAt ps' ps.length) =
        computeBalance c d dp ps := by
  intro ps ps' s h
  obtain ⟨a, hps'⟩ : ∃ a, ps' = ps ++ [a] := by
    unfold addPayment at h
    cases hp : jsParseFloat (stripNonNumeric s) with
    | none => rw [hp] at h; exact absurd h (by simp)
    | some a =>
      rw [hp] at h
      by_cases ha : a ≤ 0
      · simp [ha] at h
      · simp only [ha, if_false, Option.some.injEq] at h
        exact ⟨a, h.symm⟩
  subst hps'
  refine ⟨removePaymentAt_append ps a, ?_⟩
  intro c d dp
  rw [removePaymentAt_append ps a]

/-- Witness for C7 at a concrete payment list and amount. -/
theorem c7_add_remove_roundtrip_witness :
    removePaymentAt ([100] ++ [200]) 1 = [100] ∧
    computeBalance 1000 0 false (removePaymentAt ([100] ++ [200]) 1) =
      computeBalance 1000 0 false [100] := by
  obtain ⟨h1, h2⟩ := c7_add_remove_roundtrip [100] ([100] ++ [200]) "200" (by
    have hp : jsParseFloat (stripNonNumeric "200") = some 200 := by decide
    simp only [addPayment, hp]
    norm_num)
  exact ⟨h1, h2 1000 0 false⟩

/-- A parsed amount is never negative: the regex strips every character but
digits and dots before `parseFloat` runs. -/
theorem jsParseFloat_nonneg (cs : List Char) (q : ℚ)
    (h : jsParseFloat cs = some q) : 0 ≤ q := by
  simp only [jsParseFloat] at h
  split at h
  · split at h
    · exact absurd h (by simp)
    · rw [Option.some.injEq] at h
      subst h
      positivity
  · split at h
    · exact absurd h (by simp)
    · rw [Option.some.injEq] at h
      subst h
      positivity

/-- C8: no ledger operation produces a negative `contractAmount` or
`depositAmount` (the amount parser cannot yield a negative number, and
payment and deposit-toggle operations do not touch these fields); the
balance itself is stored exactly as computed and may be negative, as at the
concrete overpaid state shown. -/
theorem c8_nonneg_amounts_balance_unclamped :
    (∀ s, 0 ≤ parseAmountOrZero s) ∧
    (∀ j s t, 0 ≤ (handleSaveDetails j s t).contractAmount ∧
      0 ≤ (handleSaveDetails j s t).depositAmount) ∧
    (∀ s t dp ps, 0 ≤ (composeLead s t dp ps).contractAmount ∧
      0 ≤ (composeLead s t dp ps).depositAmount) ∧
    (∀ j v, (toggleDepositStatus j v).contractAmount = j.contractAmount ∧
      (toggleDepositStatus j v).depositAmount = j.depositAmount) ∧
    (∀ j s j', handleSavePayment j s = some j' →
      j'.contractAmount = j.contractAmount ∧
      j'.depositAmount = j.depositAmount) ∧
    ((toggleDepositStatus ⟨100, 50, false, [200], -100⟩ true).balance = -150 ∧
      (toggleDepositStatus ⟨100, 50, false, [200], -100⟩ true).balance < 0) := by
  have hparse : ∀ s, 0 ≤ parseAmountOrZero s := by
    intro s
    unfold parseAmountOrZero
    cases hp : jsParseFloat (stripNonNumeric s) with
    | none => simp
    | some q => simpa using jsParseFloat_nonneg _ q hp
  refine ⟨hparse, ?_, ?_, fun j v => ⟨rfl, rfl⟩, ?_, ?_⟩
  · intro j s t
    exact ⟨hparse s, hparse t⟩
  · intro s t dp ps
    exact ⟨hparse s, hparse t⟩
  · intro j s j' h
    unfold handleSavePayment at h
    cases hp : jsParseFloat (stripNonNumeric s) with
    | none => rw [hp] at h; exact absurd h (by simp)
    | some a =>
      rw [hp] at h
      by_cases ha : a ≤ 0
      · simp [ha] at h
      · simp only [ha, if_false, Option.some.injEq] at h
        subst h
        exact ⟨rfl, rfl⟩
  · constructor
    · norm_num [toggleDepositStatus]
    · norm_num [toggleDepositStatus]

/-- Witness for C8: a concrete successful payment save keeps the contract
and deposit amounts. -/
theorem c8_nonneg_amounts_witness :
    (⟨300, 20, false, [50], 250⟩ : JobFin).contractAmount =
      (⟨300, 20, false, [], 300⟩ : JobFin).contractAmount ∧
    (⟨300, 20, false, [50], 250⟩ : JobFin).depositAmount =
      (⟨300, 20, false, [], 300⟩ : JobFin).depositAmount :=
  c8_nonneg_amounts_balance_unclamped.2.2.2.2.1 ⟨300, 20, false, [], 300⟩ "50"
    ⟨300, 20, false, [50], 250⟩ (by
      have hp : jsParseFloat (stripNonNumeric "50") = some 50 := by decide
      simp only [handleSavePayment, hp]
      norm_num)

/-- C9: with a non-empty trimmed query and no selected customer, the
candidate list is exactly the customers of the provided in-memory list whose
concatenated first and last name contains the query case-insensitively, in
list order (a sublist of the input); the computation is a pure function of
its inputs. -/
theorem c9_matcher_characterization :
    ∀ (q : String) (cs : List Customer), trimmedChars q ≠ [] →
      (filterCustomers q false cs).Sublist cs ∧
      ∀ c, c ∈ filterCustomers q false cs ↔
        c ∈ cs ∧ customerMatches q c = true := by
  intro q cs hq
  have hcond : (trimmedChars q).isEmpty = false := by
    simpa [List.isEmpty_iff] using hq
  simp only [filterCustomers, hcond, Bool.or_false, Bool.false_eq_true,
    if_false]
  exact ⟨List.filter_sublist cs, fun c => List.mem_filter⟩

/-- A customer used by concrete matcher evaluations. -/
def custJohn : Customer := ⟨"c1", "John", "Smith"⟩

/-- Another customer used by concrete matcher evaluations. -/
def custMary : Customer := ⟨"c2", "Mary", "Jones"⟩

/-- Witness for C9 on a concrete query and customer list. -/
theorem c9_matcher_characterization_witness :
    (filterCustomers "Jo" false [custJohn, custMary]).Sublist
      [custJohn, custMary] ∧
    (custJohn ∈ filterCustomers "Jo" false [custJohn, custMary] ↔
      custJohn ∈ [custJohn, custMary] ∧
        customerMatches "Jo" custJohn = true) := by
  obtain ⟨h1, h2⟩ :=
    c9_matcher_characterization "Jo" [custJohn, custMary] (by decide)
  exact ⟨h1, h2 custJohn⟩

/-- C10: a query that is empty after trimming, or a currently selected
existing customer, forces the candidate list to be empty whatever the
customer list holds. -/
theorem c10_reset_candidates :
    ∀ (q : String) (sel : Bool) (cs : List Customer),
      trimmedChars q = [] ∨ sel = true → filterCustomers q sel cs = [] := by
  intro q sel cs h
  unfold filterCustomers
  rcases h with h | h
  · rw [h]
    simp
  · subst h
    simp

/-- Witness for C10 at a whitespace-only query. -/
theorem c10_reset_candidates_witness :
    filterCustomers "   " false [custJohn] = [] :=
  c10_reset_candidates "   " false [custJohn] (Or.inl (by decide))

end RoofingLead
